import Mathlib

/-!
Verification development for the `code_review` repository: an automated
repository analysis and scoring pipeline (Flask API + async worker backend,
React/Vite frontend).  The frontend sources (`frontend/src/api.ts`,
`frontend/src/components/RunForm.tsx`, `frontend/src/components/RunsTable.tsx`,
containing `RunsTable` and `RunViewer`) are embedded directly.  The backend
pipeline (state machine, worker, AI gateway, scorer) is modelled from the
design specification, since only its documentation and its frontend callers
are present in the repository snapshot.
-/

namespace CodeReview

/-! ## Frontend: `api.ts` -/

/-- The relevant observable parts of a `fetch` response as `jsonFetch` in
`frontend/src/api.ts` consumes them: the `ok` flag, the numeric HTTP
status, and the JSON-parsed body (of arbitrary type, since `r.json()` is
returned without validation). -/
structure HttpResponse (α : Type) where
  ok : Bool
  status : Nat
  body : α

/-- Embeds `jsonFetch` from `frontend/src/api.ts`:
`if (!r.ok) throw new Error(`HTTP ${r.status}`); return r.json();`.
A thrown `Error` with message `m` is modelled as `Except.error m`, a
normal return of the parsed body as `Except.ok`. -/
def jsonFetch {α : Type} (r : HttpResponse α) : Except String α :=
  if !r.ok then Except.error ("HTTP " ++ toString r.status) else Except.ok r.body

/-- Response body type of `POST /runs` as typed in `createRun`. -/
structure CreateRunBody where
  id : Nat
  status : String

/-- Response body type of `POST /runs/:id/enqueue` as typed in `enqueueRun`. -/
structure EnqueueBody where
  queued : Bool
  id : Nat

/-- Embeds `createRun` from `frontend/src/api.ts`: it is `jsonFetch`
applied to the `POST /runs` response, with no further processing. -/
def createRun (r : HttpResponse CreateRunBody) : Except String CreateRunBody :=
  jsonFetch r

/-- Embeds `enqueueRun` from `frontend/src/api.ts`: `jsonFetch` applied to
the `POST /runs/:id/enqueue` response. -/
def enqueueRun (r : HttpResponse EnqueueBody) : Except String EnqueueBody :=
  jsonFetch r

/-- The run row shape from `frontend/src/api.ts` (`RunRow`); only the
fields the embedded components inspect are kept, with optional fields as
`Option`. -/
structure RunRow where
  id : Nat
  email : String
  github_url : String
  status : String
  analyzer_md : Option String
  final_scorer_md : Option String
  overall_score : Option ℚ

/-- Embeds `getRun` from `frontend/src/api.ts`: `jsonFetch` applied to the
`GET /runs/:id` response. -/
def getRun (r : HttpResponse RunRow) : Except String RunRow :=
  jsonFetch r

/-! ## Frontend: `RunViewer` polling loop

In `RunViewer`'s `useEffect` (in `frontend/src/components/RunsTable.tsx`),
after a successful `getRun` the component does
`if (row.status !== "DONE" && row.status !== "ERROR") setTimeout(poll, 2500)`. -/

/-- The exact condition under which `RunViewer.poll` schedules another
fetch: `row.status !== "DONE" && row.status !== "ERROR"`. -/
def shouldSchedulePoll (status : String) : Bool :=
  status != "DONE" && status != "ERROR"

/-- The polling delay passed to `setTimeout` in `RunViewer.poll`, in
milliseconds. -/
def pollDelayMs : Nat := 2500

/-! ## Frontend: `RunForm.submit` -/

/-- The pieces of `RunForm` component state that `submit` reads and
writes: the two controlled inputs and the `error` message state. -/
structure FormState where
  email : String
  repo : String
  error : Option String

/-- Outcome of the `createRun` network call as observed by `submit`'s
`try`/`catch`: either the created run id, or a thrown error's message
(possibly empty, in which case `err.message || "Failed"` falls back). -/
inductive NetOutcome where
  | success (id : Nat)
  | failure (message : String)

/-- What one invocation of `submit` produces: the resulting component
state, whether `createRun` was invoked at all, and the id passed to
`onCreated` (if any). -/
structure SubmitResult where
  state : FormState
  calledCreateRun : Bool
  createdId : Option Nat

/-- Embeds `submit` from `frontend/src/components/RunForm.tsx`.
`setError(null)` runs first; if `!email || !repo` (empty string is falsy)
a validation error is set and the function returns before any network
call, leaving the input fields untouched.  Otherwise `createRun` runs;
on success `onCreated(id)` fires, on exception the error message (or
`"Failed"` when falsy) is stored; the `finally` block always resets both
input fields to the empty string. -/
def submit (s : FormState) (net : NetOutcome) : SubmitResult :=
  if s.email == "" || s.repo == "" then
    { state := { s with error := some "Email and repository URL required" }
      calledCreateRun := false
      createdId := none }
  else
    match net with
    | NetOutcome.success id =>
        { state := { email := "", repo := "", error := none }
          calledCreateRun := true
          createdId := some id }
    | NetOutcome.failure msg =>
        { state := { email := "", repo := ""
                     error := some (if msg == "" then "Failed" else msg) }
          calledCreateRun := true
          createdId := none }

/-! ## Run state machine

The backend state machine lives in `api.py`/`persistence_single.py`, which
are not part of this snapshot; it is modelled from the specification
(§4.1, §6): statuses are exactly the five string literals
`PENDING | RUNNING | ANALYZED | DONE | ERROR`. -/

/-- Modelled from the spec: the run status enumeration of the backend
state machine (`api.py` is absent from the snapshot).  §4.1/§6 list the
states `PENDING, RUNNING, ANALYZED, DONE, ERROR` and nothing else. -/
inductive Status where
  | PENDING
  | RUNNING
  | ANALYZED
  | DONE
  | ERROR
deriving DecidableEq, Repr

/-- The string literal under which each status crosses the boundary
(spec §6: "string literals, stable contract"). -/
def Status.literal : Status → String
  | Status.PENDING => "PENDING"
  | Status.RUNNING => "RUNNING"
  | Status.ANALYZED => "ANALYZED"
  | Status.DONE => "DONE"
  | Status.ERROR => "ERROR"

/-- The boundary status vocabulary as the spec fixes it. -/
def statusStrings : List String :=
  ["PENDING", "RUNNING", "ANALYZED", "DONE", "ERROR"]

/-- Embeds the colour map of `statusBadge` in
`frontend/src/components/RunsTable.tsx` (the runs-table badge): note it
also carries a defensive `QUEUED` entry and a fallback colour for unknown
strings. -/
def statusBadgeColor (status : String) : String :=
  if status == "PENDING" then "bg-slate-400"
  else if status == "RUNNING" then "bg-blue-500"
  else if status == "ANALYZED" then "bg-purple-500"
  else if status == "DONE" then "bg-green-600"
  else if status == "ERROR" then "bg-red-600"
  else if status == "QUEUED" then "bg-yellow-500"
  else "bg-slate-500"

/-- Embeds the colour map of `StatusBadge` in
`frontend/src/components/RunsTable.tsx` (the run-viewer badge): exactly
the five contract statuses, plus a fallback. -/
def runViewerBadgeColor (status : String) : String :=
  if status == "PENDING" then "bg-slate-400"
  else if status == "RUNNING" then "bg-blue-500"
  else if status == "ANALYZED" then "bg-purple-500"
  else if status == "DONE" then "bg-green-600"
  else if status == "ERROR" then "bg-red-600"
  else "bg-slate-500"

/-! ## Run rows and the enqueue boundary operation -/

/-- Modelled from the spec: the run row fields the worker and the enqueue
boundary read and write (`persistence_single.py` is absent from the
snapshot).  Markdown/JSON artifact pairs are abstracted to single opaque
strings; AI caches are fingerprint-keyed association lists (spec §3). -/
structure Run where
  status : Status
  analyzer_output : Option String
  scorer_output : Option String
  overall_score : Option ℚ
  analyzer_ai_cache : List (String × String)
  scorer_ai_cache : List (String × String)
  error_message : Option String
deriving DecidableEq, Repr

/-- What `enqueue(run_id)` produces: the `accepted` flag, the reported
message, the queue afterwards, and the run row afterwards. -/
structure EnqueueResult where
  accepted : Bool
  message : Option String
  queue : List Nat
  run : Run
deriving DecidableEq, Repr

/-- Modelled from the spec: the boundary operation `enqueue(run_id)`
(`api.py` is absent from the snapshot).  §4.2/§6: accepted iff the run's
current status is `PENDING` or `ERROR`, in which case the id is queued
(and `error_message` is cleared, §3); otherwise a no-op on the run's
state that reports "already in flight". -/
def enqueue (id : Nat) (run : Run) (queue : List Nat) : EnqueueResult :=
  if run.status == Status.PENDING || run.status == Status.ERROR then
    { accepted := true
      message := none
      queue := queue ++ [id]
      run := { run with error_message := none } }
  else
    { accepted := false
      message := some "already in flight"
      queue := queue
      run := run }

/-! ## AI Gateway -/

/-- Modelled from the spec: the prompt fingerprint is a stable content
hash of the fully rendered prompt (SHA-256 per the README; the hashing
code in `analyzer.py` is absent from the snapshot).  It is modelled as
the rendered prompt itself — a deterministic, injective stand-in that
preserves the property "identical rendered prompt, identical
fingerprint". -/
def fingerprint (prompt : String) : String := prompt

/-- What one `call(prompt, cache)` invocation produces: the response, the
cache afterwards, and how many outbound calls to the external AI service
were issued. -/
structure GatewayResult where
  response : String
  cache : List (String × String)
  outboundCalls : Nat
deriving DecidableEq, Repr

/-- Modelled from the spec: the AI Gateway `call(prompt, cache)` (§4.5;
the gateway code in `analyzer.py`/`final_scorer.py` is absent from the
snapshot).  Compute the fingerprint; on a cache hit return the cached
response with zero outbound calls; on a miss invoke the external service
(`service`, the rate-limited, retried network call collapsed to its
successful response), store the response keyed by fingerprint, and
return it, counting one outbound call. -/
def call (service : String → String) (prompt : String)
    (cache : List (String × String)) : GatewayResult :=
  match cache.lookup (fingerprint prompt) with
  | some r => { response := r, cache := cache, outboundCalls := 0 }
  | none =>
      let r := service prompt
      { response := r
        cache := (fingerprint prompt, r) :: cache
        outboundCalls := 1 }

/-! ## Scorer Engine: discretization and weighted overall score

`final_scorer.py` is absent from the snapshot; the scoring arithmetic is
modelled from spec §4.4 and the README ("Discrete scoring (0.0 .. 1.0
step 0.1) enforced; overrides supported", "Weighted average + optional
summary comment", `overall_score NUMERIC(4,2)`). -/

/-- Decides membership in the discrete score grid
{0.0, 0.1, 0.2, ..., 1.0}: a rational in [0, 1] that is an integer
multiple of 1/10. -/
def onGrid (q : ℚ) : Bool :=
  decide (0 ≤ q) && decide (q ≤ 1) && ((q * 10).den == 1)

/-- Modelled from the spec: round an intermediate (computed or
AI-suggested) value to the nearest valid 0.1 step inside the inclusive
range [0.0, 1.0] (§4.4; `final_scorer.py` is absent from the
snapshot). -/
def discretize (q : ℚ) : ℚ :=
  ((max 0 (min 10 (round (q * 10))) : ℤ) : ℚ) / 10

/-- Modelled from the spec: the score written for one criterion (§4.4;
`final_scorer.py` is absent from the snapshot).  An explicit override is
honored unrounded if already on-step, else rounded; otherwise the
computed/AI-suggested value is rounded to the nearest step. -/
def criterionScore (computed : ℚ) (override : Option ℚ) : ℚ :=
  match override with
  | some o => if onGrid o then o else discretize o
  | none => discretize computed

/-- Modelled from the spec: the overall score over `(weight, score)`
pairs — the weighted average of per-criterion scores (§4.4 "Overall
score = weighted average of per-criterion scores, weights normalized to
sum to 1"; `final_scorer.py` is absent from the snapshot). -/
def overallScore (criteria : List (ℚ × ℚ)) : ℚ :=
  (criteria.map (fun c => c.1 * c.2)).sum / (criteria.map Prod.fst).sum

/-- The same quantity written the way the spec phrases it: first
normalize the weights so they sum to 1, then sum weightᵢ′ · scoreᵢ. -/
def overallScoreNormalized (criteria : List (ℚ × ℚ)) : ℚ :=
  (criteria.map (fun c => c.1 / (criteria.map Prod.fst).sum * c.2)).sum

/-! ## Worker / Scheduler

The worker loop lives in `api.py`, absent from the snapshot; one
processing pass over a dequeued run is modelled from spec §4.2: clone
when `PENDING`, then the Analyzer phase guarded by "is `analyzer_output`
already present", then the Scorer phase guarded by "is `scorer_output`
already present" (the resumability rule: a phase never re-executes work
whose output is already present). -/

/-- The externally observable work one processing pass performs: how
many times each engine executed and how many Analyzer AI cache misses
(outbound AI calls) were issued. -/
structure PhaseCounters where
  analyzerExecutions : Nat
  analyzerAiMisses : Nat
  scorerExecutions : Nat
deriving DecidableEq, Repr

/-- Modelled from the spec: the outcome of each effectful step of one
worker pass (clone, Analyzer engine, Scorer engine), supplied as data so
the pass itself is a pure function (`api.py` is absent from the
snapshot).  The fields describe what each phase would produce were it
executed. -/
structure WorkerEffects where
  cloneOk : Bool
  cloneError : String
  analyzerOk : Bool
  analyzerOutput : String
  analyzerCacheAdds : List (String × String)
  analyzerAiMisses : Nat
  analyzerError : String
  scorerOk : Bool
  scorerOutput : String
  scorerScore : ℚ
  scorerCacheAdds : List (String × String)
  scorerError : String
deriving DecidableEq, Repr

/-- Modelled from the spec: worker step 4 (§4.2) — the Scorer phase,
skipped when `scorer_output` is already present (both artifacts present
means the run is `DONE`, §4.1); on success persist
`scorer_output`/`overall_score` and transition to `DONE`, on
unrecoverable failure transition to `ERROR`. -/
def scorerStep (fx : WorkerEffects) (run : Run) (c : PhaseCounters) :
    Run × PhaseCounters :=
  match run.scorer_output with
  | some _ => ({ run with status := Status.DONE }, c)
  | none =>
      if fx.scorerOk then
        ({ run with
            scorer_output := some fx.scorerOutput
            overall_score := some fx.scorerScore
            scorer_ai_cache := run.scorer_ai_cache ++ fx.scorerCacheAdds
            status := Status.DONE },
         { c with scorerExecutions := 1 })
      else
        ({ run with status := Status.ERROR, error_message := some fx.scorerError },
         { c with scorerExecutions := 1 })

/-- Modelled from the spec: one full worker pass over a dequeued run
(§4.2; `api.py` is absent from the snapshot).  Step 2: a `PENDING` run
is cloned — on clone failure transition to `ERROR` and stop; otherwise
the run is `RUNNING` (a re-enqueued `ERROR` run goes straight to
`RUNNING`, §4.1).  Step 3: the Analyzer executes only when
`analyzer_output` is absent; when it is already present the phase is
skipped with its artifacts and AI cache untouched and zero AI calls.
Step 4: `scorerStep`. -/
def processRun (fx : WorkerEffects) (run : Run) : Run × PhaseCounters :=
  if run.status == Status.PENDING && !fx.cloneOk then
    ({ run with status := Status.ERROR, error_message := some fx.cloneError },
     { analyzerExecutions := 0, analyzerAiMisses := 0, scorerExecutions := 0 })
  else
    let r1 := { run with status := Status.RUNNING }
    match run.analyzer_output with
    | some _ =>
        scorerStep fx { r1 with status := Status.ANALYZED }
          { analyzerExecutions := 0, analyzerAiMisses := 0, scorerExecutions := 0 }
    | none =>
        if fx.analyzerOk then
          scorerStep fx
            { r1 with
                analyzer_output := some fx.analyzerOutput
                analyzer_ai_cache := r1.analyzer_ai_cache ++ fx.analyzerCacheAdds
                status := Status.ANALYZED }
            { analyzerExecutions := 1, analyzerAiMisses := fx.analyzerAiMisses
              scorerExecutions := 0 }
        else
          ({ r1 with status := Status.ERROR, error_message := some fx.analyzerError },
           { analyzerExecutions := 1, analyzerAiMisses := fx.analyzerAiMisses
             scorerExecutions := 0 })

/-- A concrete re-enqueued run whose Analyzer phase is already complete
(scorer had failed): used to witness the resumability theorem. -/
def sampleRun : Run :=
  { status := Status.ERROR
    analyzer_output := some "analyzer report"
    scorer_output := none
    overall_score := none
    analyzer_ai_cache := [("fp1", "resp1")]
    scorer_ai_cache := []
    error_message := some "scorer failed" }

/-- Concrete effect outcomes for the witness pass: clone and scorer
succeed. -/
def sampleEffects : WorkerEffects :=
  { cloneOk := true
    cloneError := ""
    analyzerOk := true
    analyzerOutput := "fresh analyzer output"
    analyzerCacheAdds := [("fp9", "resp9")]
    analyzerAiMisses := 3
    analyzerError := ""
    scorerOk := true
    scorerOutput := "scorer report"
    scorerScore := 7/10
    scorerCacheAdds := [("fp2", "resp2")]
    scorerError := "" }

/-! ## Rate limiter: the process-wide token bucket

The limiter lives in `analyzer.py`, absent from the snapshot; it is
modelled from spec §4.5/§6: a token bucket with fixed capacity
`AI_MAX_CALLS_PER_MINUTE` that refills at `AI_MAX_CALLS_PER_MINUTE`
tokens per 60 seconds, shared by all workers.  Concurrency is abstracted
to the time-ordered sequence of admission instants the bucket grants
across all workers: a caller without a token blocks (its admission
instant is simply later), so a schedule is possible exactly when the
bucket validates it. -/

/-- Modelled from the spec: the bucket's state — current token count and
the instant (in seconds) of the last admission/refill accounting. -/
structure Bucket where
  tokens : ℚ
  last : ℚ
deriving DecidableEq, Repr

/-- Modelled from the spec: admit one call at instant `t`.  Tokens refill
continuously at `rate` per second up to `cap`; the call is admitted when
at least one token is available, consuming it.  `none` means no token
was available at `t` (the caller would still be blocked). -/
def bucketStep (cap rate : ℚ) (b : Bucket) (t : ℚ) : Option Bucket :=
  if b.last ≤ t then
    let tok := min cap (b.tokens + rate * (t - b.last))
    if 1 ≤ tok then some { tokens := tok - 1, last := t } else none
  else none

/-- Run the bucket over a time-ordered list of admission instants. -/
def bucketRun (cap rate : ℚ) : Bucket → List ℚ → Option Bucket
  | b, [] => some b
  | b, t :: ts =>
      match bucketStep cap rate b t with
      | some b2 => bucketRun cap rate b2 ts
      | none => none

/-- A schedule of admission instants is admissible when the bucket —
starting full, per token-bucket semantics — grants every one of them. -/
def admissible (cap rate : ℚ) (ts : List ℚ) : Bool :=
  (bucketRun cap rate { tokens := cap, last := 0 } ts).isSome

/-- The number of admissions falling in the rolling 60-second window
starting at `w`. -/
def countWindow (w : ℚ) (ts : List ℚ) : Nat :=
  (ts.filter (fun t => decide (w ≤ t) && decide (t ≤ w + 60))).length

end CodeReview

/-! ## Theorems for the frontend claims -/

namespace CodeReview

/-- C9: every frontend API helper built on `jsonFetch` (here `createRun`,
`enqueueRun`, `getRun`) rejects with an `Error` whose message is
`"HTTP <status>"` exactly when the response is not ok, and otherwise
returns the parsed JSON body unchanged. -/
theorem jsonFetch_http_error_iff_not_ok :
    ∀ (α : Type) (r : HttpResponse α),
      (jsonFetch r = Except.error ("HTTP " ++ toString r.status) ↔ r.ok = false) ∧
      (jsonFetch r = Except.ok r.body ↔ r.ok = true) ∧
      (∀ rc : HttpResponse CreateRunBody, createRun rc = jsonFetch rc) ∧
      (∀ re : HttpResponse EnqueueBody, enqueueRun re = jsonFetch re) ∧
      (∀ rg : HttpResponse RunRow, getRun rg = jsonFetch rg) := by
  intro α r
  refine ⟨?_, ?_, fun _ => rfl, fun _ => rfl, fun _ => rfl⟩
  · cases h : r.ok <;> simp [jsonFetch, h]
  · cases h : r.ok <;> simp [jsonFetch, h]

/-- C8: `RunViewer` schedules another fetch (after 2.5 seconds) exactly
when the fetched row's status is neither `DONE` nor `ERROR`; on a terminal
status no further poll is scheduled. -/
theorem runViewer_polls_until_terminal :
    ∀ st : String,
      (shouldSchedulePoll st = true ↔ (st ≠ "DONE" ∧ st ≠ "ERROR")) ∧
      pollDelayMs = 2500 := by
  intro st
  constructor
  · simp [shouldSchedulePoll]
  · rfl

/-- C10: `submit` never invokes `createRun` when either field is empty
(it sets a validation error and leaves the fields as they were), and on
every attempt that passes validation — success or network failure — both
input fields are reset to the empty string. -/
theorem runForm_submit_validation_and_reset :
    ∀ (s : FormState) (net : NetOutcome),
      (submit s net).calledCreateRun = (s.email != "" && s.repo != "") ∧
      (submit s net).state.email = (if s.email == "" || s.repo == "" then s.email else "") ∧
      (submit s net).state.repo = (if s.email == "" || s.repo == "" then s.repo else "") ∧
      (submit s net).state.error =
        (if s.email == "" || s.repo == "" then some "Email and repository URL required"
         else match net with
              | NetOutcome.success _ => none
              | NetOutcome.failure msg => some (if msg == "" then "Failed" else msg)) := by
  intro s net
  by_cases he : s.email = ""
  · refine ⟨?_, ?_, ?_, ?_⟩ <;> simp [submit, he]
  · by_cases hr : s.repo = ""
    · refine ⟨?_, ?_, ?_, ?_⟩ <;> simp [submit, he, hr]
    · cases net <;> refine ⟨?_, ?_, ?_, ?_⟩ <;> simp [submit, he, hr]

/-- C7: the status value exposed across the boundary is always one of
exactly the five string literals `PENDING, RUNNING, ANALYZED, DONE,
ERROR`; `ANALYZED` is a member of the exposed set and `QUEUED` is not,
and the run-viewer badge recognizes exactly this vocabulary (everything
else falls to the default colour). -/
theorem status_vocabulary_exactly_five :
    (∀ s : Status, s.literal ∈ statusStrings) ∧
    statusStrings = ["PENDING", "RUNNING", "ANALYZED", "DONE", "ERROR"] ∧
    "ANALYZED" ∈ statusStrings ∧
    "QUEUED" ∉ statusStrings ∧
    (∀ s : Status, runViewerBadgeColor s.literal ≠ "bg-slate-500") ∧
    runViewerBadgeColor "QUEUED" = "bg-slate-500" := by
  refine ⟨?_, rfl, ?_, ?_, ?_, rfl⟩
  · intro s; cases s <;> simp [Status.literal, statusStrings]
  · simp [statusStrings]
  · simp [statusStrings]
  · intro s; cases s <;> simp [Status.literal, runViewerBadgeColor]

/-- C3: `enqueue(run_id)` accepts — returning `accepted = true` and
appending the id to the queue — exactly when the run's current status is
`PENDING` or `ERROR`; for any other status it leaves the run row and the
queue untouched and reports "already in flight". -/
theorem enqueue_accepts_iff_pending_or_error :
    ∀ (id : Nat) (run : Run) (queue : List Nat),
      (enqueue id run queue).accepted
        = (run.status == Status.PENDING || run.status == Status.ERROR) ∧
      (enqueue id run queue).queue
        = (if run.status == Status.PENDING || run.status == Status.ERROR
           then queue ++ [id] else queue) ∧
      (enqueue id run queue).run
        = (if run.status == Status.PENDING || run.status == Status.ERROR
           then { run with error_message := none } else run) ∧
      (enqueue id run queue).message
        = (if run.status == Status.PENDING || run.status == Status.ERROR
           then none else some "already in flight") := by
  intro id run queue
  by_cases h : (run.status == Status.PENDING || run.status == Status.ERROR) = true
  · refine ⟨?_, ?_, ?_, ?_⟩ <;> simp [enqueue, h]
  · refine ⟨?_, ?_, ?_, ?_⟩ <;> simp [enqueue, h]

/-- C2: for an identical rendered prompt against a cache already holding
that fingerprint's entry, `call` performs zero outbound invocations and
returns a response identical to the cached one: in particular, calling
twice in a row issues no second outbound call, returns the same
response, and leaves the cache exactly as the first call left it. -/
theorem gateway_second_call_hits_cache :
    ∀ (service : String → String) (prompt : String)
      (cache : List (String × String)),
      (call service prompt (call service prompt cache).cache).outboundCalls = 0 ∧
      (call service prompt (call service prompt cache).cache).response
        = (call service prompt cache).response ∧
      (call service prompt (call service prompt cache).cache).cache
        = (call service prompt cache).cache := by
  intro service prompt cache
  cases h : cache.lookup (fingerprint prompt) with
  | some r => refine ⟨?_, ?_, ?_⟩ <;> simp [call, h]
  | none => refine ⟨?_, ?_, ?_⟩ <;> simp [call, h]

/-- Rounding to the nearest step always lands on the grid. -/
lemma onGrid_discretize (q : ℚ) : onGrid (discretize q) = true := by
  unfold onGrid discretize
  have h0 : (0 : ℤ) ≤ max 0 (min 10 (round (q * 10))) := le_max_left 0 _
  have h10 : max 0 (min 10 (round (q * 10))) ≤ 10 :=
    max_le (by norm_num) (min_le_left 10 _)
  have hne : (10 : ℚ) ≠ 0 := by norm_num
  have hcancel :
      ((max 0 (min 10 (round (q * 10))) : ℤ) : ℚ) / 10 * 10
        = ((max 0 (min 10 (round (q * 10))) : ℤ) : ℚ) :=
    div_mul_cancel₀ _ hne
  simp only [Bool.and_eq_true, decide_eq_true_eq, beq_iff_eq]
  refine ⟨⟨?_, ?_⟩, ?_⟩
  · positivity
  · rw [div_le_one (by norm_num : (0:ℚ) < 10)]
    exact_mod_cast h10
  · rw [hcancel]
    exact Rat.den_intCast _

/-- C1 counterexample: two equally-weighted criteria whose written
per-criterion scores are both on the 0.1 grid (0.7 and 0.8) produce an
`overall_score` of 0.75, which is not on the grid — so not every score
the system writes lies on {0.0, 0.1, ..., 1.0}. -/
theorem overall_score_off_grid :
    criterionScore (7/10) none = 7/10 ∧
    criterionScore (8/10) none = 8/10 ∧
    onGrid (7/10) = true ∧
    onGrid (8/10) = true ∧
    overallScore [(1, 7/10), (1, 8/10)] = 3/4 ∧
    onGrid (3/4) = false := by
  refine ⟨?_, ?_, ?_, ?_, ?_, ?_⟩
  · norm_num [criterionScore, discretize]
  · norm_num [criterionScore, discretize]
  · norm_num [onGrid]
  · norm_num [onGrid]
  · norm_num [overallScore]
  · norm_num [onGrid]

/-- C1 (amended): every per-criterion score the system writes is on the
discrete grid {0.0, 0.1, ..., 1.0} — intermediate values are rounded to
the nearest step, and an override is stored unrounded only if already
on-step, else rounded; the run's `overall_score` is the weighted average
of these per-criterion scores and need not lie on the grid. -/
theorem criterion_scores_always_on_grid :
    ∀ (computed : ℚ) (override : Option ℚ),
      onGrid (criterionScore computed override) = true := by
  intro computed override
  cases override with
  | none => exact onGrid_discretize computed
  | some o =>
      by_cases h : onGrid o = true
      · simp [criterionScore, h]
      · simp only [criterionScore, Bool.not_eq_true] at h ⊢
        simp [h, onGrid_discretize]

/-- Pulling a common divisor out of a list sum. -/
lemma sum_map_div {α : Type} (f : α → ℚ) (W : ℚ) (l : List α) :
    (l.map (fun x => f x / W)).sum = (l.map f).sum / W := by
  induction l with
  | nil => simp
  | cons a l ih => simp only [List.map_cons, List.sum_cons, add_div, ih]

/-- C4: the stored `overall_score` equals the weighted average of the
per-criterion scores with the weights normalized to sum to 1 — exactly,
in rational arithmetic (hence within any floating rounding tolerance). -/
theorem overall_score_eq_normalized_weighted_average :
    ∀ criteria : List (ℚ × ℚ),
      overallScore criteria = overallScoreNormalized criteria := by
  intro criteria
  unfold overallScore overallScoreNormalized
  have h : (fun c : ℚ × ℚ => c.1 / (criteria.map Prod.fst).sum * c.2)
      = fun c : ℚ × ℚ => c.1 * c.2 / (criteria.map Prod.fst).sum := by
    funext c
    rw [div_mul_eq_mul_div]
  rw [h, sum_map_div (fun c : ℚ × ℚ => c.1 * c.2)]

/-- C6: re-processing a run whose `analyzer_output` is already set never
executes the Analyzer phase and never issues an Analyzer AI call (the
cache-miss count stays zero); the analyzer artifacts and analyzer AI
cache are left exactly as they were, only the missing Scorer phase
executes, and the run ends in `DONE` on scorer success. -/
theorem reenqueue_with_analyzer_output_skips_analyzer
    (fx : WorkerEffects) (run : Run)
    (hout : run.analyzer_output.isSome = true)
    (hclone : fx.cloneOk = true)
    (hscorer : run.scorer_output = none)
    (hok : fx.scorerOk = true) :
    (processRun fx run).2.analyzerExecutions = 0 ∧
    (processRun fx run).2.analyzerAiMisses = 0 ∧
    (processRun fx run).1.analyzer_output = run.analyzer_output ∧
    (processRun fx run).1.analyzer_ai_cache = run.analyzer_ai_cache ∧
    (processRun fx run).2.scorerExecutions = 1 ∧
    (processRun fx run).1.status = Status.DONE := by
  obtain ⟨a, ha⟩ := Option.isSome_iff_exists.mp hout
  refine ⟨?_, ?_, ?_, ?_, ?_, ?_⟩ <;>
    simp [processRun, scorerStep, ha, hclone, hscorer, hok]

/-- Witness for C6 at a concrete input: a re-enqueued `ERROR` run with
`analyzer_output` already present and a succeeding scorer pass. -/
theorem reenqueue_with_analyzer_output_skips_analyzer_witness :
    (sampleRun.analyzer_output.isSome = true ∧
     sampleEffects.cloneOk = true ∧
     sampleRun.scorer_output = none ∧
     sampleEffects.scorerOk = true) ∧
    ((processRun sampleEffects sampleRun).2.analyzerExecutions = 0 ∧
     (processRun sampleEffects sampleRun).2.analyzerAiMisses = 0 ∧
     (processRun sampleEffects sampleRun).1.analyzer_output = sampleRun.analyzer_output ∧
     (processRun sampleEffects sampleRun).1.analyzer_ai_cache = sampleRun.analyzer_ai_cache ∧
     (processRun sampleEffects sampleRun).2.scorerExecutions = 1 ∧
     (processRun sampleEffects sampleRun).1.status = Status.DONE) :=
  ⟨⟨rfl, rfl, rfl, rfl⟩,
   reenqueue_with_analyzer_output_skips_analyzer sampleEffects sampleRun rfl rfl rfl rfl⟩

/-- Unpacking a successful bucket admission. -/
lemma bucketStep_some {cap rate : ℚ} {b : Bucket} {t : ℚ} {b2 : Bucket}
    (h : bucketStep cap rate b t = some b2) :
    b.last ≤ t ∧ 1 ≤ min cap (b.tokens + rate * (t - b.last)) ∧
      b2 = { tokens := min cap (b.tokens + rate * (t - b.last)) - 1, last := t } := by
  unfold bucketStep at h
  by_cases hle : b.last ≤ t
  · simp only [hle, if_true] at h
    by_cases htok : 1 ≤ min cap (b.tokens + rate * (t - b.last))
    · simp only [htok, if_true, Option.some_inj] at h
      exact ⟨hle, htok, h.symm⟩
    · simp [htok] at h
  · simp [hle] at h

/-- An admissible schedule is time-ordered, so no admission precedes the
state's last-accounted instant. -/
lemma no_admissions_before_last {cap rate : ℚ} :
    ∀ (ts : List ℚ) (b b2 : Bucket) (bound : ℚ),
      bucketRun cap rate b ts = some b2 → bound < b.last →
      (ts.filter (fun t => decide (t ≤ bound))).length = 0 := by
  intro ts
  induction ts with
  | nil => intro b b2 bound _ _; simp
  | cons t ts ih =>
      intro b b2 bound hrun hb
      unfold bucketRun at hrun
      cases hstep : bucketStep cap rate b t with
      | none => rw [hstep] at hrun; exact absurd hrun (by simp)
      | some b1 =>
          rw [hstep] at hrun
          obtain ⟨hle, _, hb1⟩ := bucketStep_some hstep
          have ht : ¬ (t ≤ bound) := by linarith
          have htail : (ts.filter (fun t => decide (t ≤ bound))).length = 0 := by
            refine ih b1 b2 bound hrun ?_
            rw [hb1]
            exact lt_of_lt_of_le hb hle
          simp [List.filter_cons, ht, htail]

/-- Core token-bucket accounting: from any state, the admissions granted
up to instant `bound` are limited by the tokens on hand plus what can
refill until `bound`. -/
lemma admissions_le_tokens_plus_refill {cap rate : ℚ} (hrate : 0 ≤ rate) :
    ∀ (ts : List ℚ) (b b2 : Bucket) (bound : ℚ),
      bucketRun cap rate b ts = some b2 → 0 ≤ b.tokens → b.last ≤ bound →
      ((ts.filter (fun t => decide (t ≤ bound))).length : ℚ)
        ≤ b.tokens + rate * (bound - b.last) := by
  intro ts
  induction ts with
  | nil =>
      intro b b2 bound _ htok hle
      have hrf : 0 ≤ rate * (bound - b.last) := mul_nonneg hrate (by linarith)
      simp only [List.filter_nil, List.length_nil, Nat.cast_zero]
      linarith
  | cons t ts ih =>
      intro b b2 bound hrun htok hle
      unfold bucketRun at hrun
      cases hstep : bucketStep cap rate b t with
      | none => rw [hstep] at hrun; exact absurd hrun (by simp)
      | some b1 =>
          rw [hstep] at hrun
          obtain ⟨hlt, hmin, hb1⟩ := bucketStep_some hstep
          have htok1 : 0 ≤ b1.tokens := by rw [hb1]; dsimp only; linarith
          have hlast1 : b1.last = t := by rw [hb1]
          by_cases ht : t ≤ bound
          · have hrest := ih b1 b2 bound hrun htok1 (by rw [hlast1]; exact ht)
            rw [hb1] at hrest
            dsimp only at hrest
            have hminle : min cap (b.tokens + rate * (t - b.last))
                ≤ b.tokens + rate * (t - b.last) := min_le_right _ _
            have hdist : rate * (t - b.last) + rate * (bound - t)
                = rate * (bound - b.last) := by ring
            simp only [List.filter_cons, ht, decide_True, if_true, List.length_cons,
              Nat.cast_add, Nat.cast_one]
            linarith
          · have htail : (ts.filter (fun x => decide (x ≤ bound))).length = 0 := by
              refine no_admissions_before_last ts b1 b2 bound hrun ?_
              rw [hlast1]
              linarith [lt_of_not_le ht]
            have hrf : 0 ≤ rate * (bound - b.last) := mul_nonneg hrate (by linarith)
            simp only [List.filter_cons, ht, decide_False]
            simp only [Bool.false_eq_true, if_false, htail, Nat.cast_zero]
            linarith

/-- Strengthening a filter predicate cannot increase the count. -/
lemma filter_and_length_le {α : Type} (p q : α → Bool) (l : List α) :
    (l.filter (fun x => p x && q x)).length ≤ (l.filter q).length := by
  induction l with
  | nil => simp
  | cons a l ih =>
      simp only [List.filter_cons]
      by_cases hp : p a = true
      · by_cases hq : q a = true
        · simp [hp, hq]; omega
        · simp [hp, hq]; omega
      · by_cases hq : q a = true
        · simp [hp, hq]; omega
        · simp [hp, hq]; omega

/-- From any reachable state with at most `cap` tokens, any rolling
60-second window holds at most `cap + rate·60` admissions. -/
lemma window_bound_aux {cap rate : ℚ} (hrate : 0 ≤ rate) :
    ∀ (ts : List ℚ) (b b2 : Bucket) (w : ℚ),
      bucketRun cap rate b ts = some b2 → 0 ≤ b.tokens → b.tokens ≤ cap →
      ((ts.filter (fun t => decide (w ≤ t) && decide (t ≤ w + 60))).length : ℚ)
        ≤ cap + rate * 60 := by
  intro ts
  induction ts with
  | nil =>
      intro b b2 w _ htok hcap
      have hrf : 0 ≤ rate * 60 := by positivity
      simp only [List.filter_nil, List.length_nil, Nat.cast_zero]
      linarith
  | cons t ts ih =>
      intro b b2 w hrun htok hcap
      unfold bucketRun at hrun
      cases hstep : bucketStep cap rate b t with
      | none => rw [hstep] at hrun; exact absurd hrun (by simp)
      | some b1 =>
          rw [hstep] at hrun
          obtain ⟨hlt, hmin, hb1⟩ := bucketStep_some hstep
          have htok1 : 0 ≤ b1.tokens := by rw [hb1]; dsimp only; linarith
          have hlast1 : b1.last = t := by rw [hb1]
          have hminc : min cap (b.tokens + rate * (t - b.last)) ≤ cap := min_le_left _ _
          have hcap1 : b1.tokens ≤ cap := by rw [hb1]; dsimp only; linarith
          by_cases hin : (w ≤ t ∧ t ≤ w + 60)
          · have hsub : ((ts.filter (fun x => decide (w ≤ x) && decide (x ≤ w + 60))).length : ℚ)
                ≤ ((ts.filter (fun x => decide (x ≤ w + 60))).length : ℚ) := by
              exact_mod_cast filter_and_length_le _ _ ts
            have hrest := admissions_le_tokens_plus_refill hrate ts b1 b2 (w + 60) hrun
              htok1 (by rw [hlast1]; exact hin.2)
            rw [hb1] at hrest
            dsimp only at hrest
            have hw : rate * (w + 60 - t) ≤ rate * 60 := by
              apply mul_le_mul_of_nonneg_left _ hrate
              linarith [hin.1]
            simp only [List.filter_cons, hin.1, hin.2, decide_True, Bool.and_self,
              if_true, List.length_cons, Nat.cast_add, Nat.cast_one]
            linarith
          · have hdrop : (decide (w ≤ t) && decide (t ≤ w + 60)) = false := by
              rcases not_and_or.mp hin with h | h
              · simp [h]
              · simp [h]
            have htail := ih b1 b2 w hrun htok1 hcap1
            simp only [List.filter_cons, hdrop]
            simp only [Bool.false_eq_true, if_false]
            exact htail

/-- C5 counterexample: with `AI_MAX_CALLS_PER_MINUTE = 2` the spec's
bucket (capacity 2, refill 2 tokens per 60 s) admits the schedule
0 s, 0 s, 30 s — three outbound calls inside the rolling 60-second
window starting at 0, exceeding the claimed bound of 2. -/
theorem rate_limit_window_counterexample :
    admissible 2 (2/60) [0, 0, 30] = true ∧
    countWindow 0 [0, 0, 30] = 3 ∧
    ¬ (countWindow 0 [0, 0, 30] ≤ 2) := by
  refine ⟨?_, ?_, ?_⟩
  · norm_num [admissible, bucketRun, bucketStep]
  · norm_num [countWindow]
  · norm_num [countWindow]

/-- C5 (amended): for any schedule of outbound calls the shared token
bucket admits (under any interleaving of workers, abstracted as their
merged time-ordered admission instants), every rolling 60-second window
holds at most twice `AI_MAX_CALLS_PER_MINUTE` calls — the capacity burst
plus one window's refill; a caller without an available token is merely
delayed (blocked) to a later admission instant, never rejected. -/
theorem rate_limit_rolling_window_twice_bound
    (cap : ℚ) (ts : List ℚ) (w : ℚ)
    (hcap : 0 ≤ cap) (hadm : admissible cap (cap / 60) ts = true) :
    ((countWindow w ts : ℕ) : ℚ) ≤ 2 * cap := by
  unfold admissible at hadm
  rw [Option.isSome_iff_exists] at hadm
  obtain ⟨b2, hb2⟩ := hadm
  have hrate : 0 ≤ cap / 60 := by positivity
  have hmain := window_bound_aux hrate ts { tokens := cap, last := 0 } b2 w hb2
    (by dsimp only; exact hcap) (by dsimp only; exact le_rfl)
  unfold countWindow
  calc ((ts.filter (fun t => decide (w ≤ t) && decide (t ≤ w + 60))).length : ℚ)
      ≤ cap + cap / 60 * 60 := hmain
    _ = 2 * cap := by ring

/-- Witness for the amended C5 at a concrete input: the counterexample
schedule itself stays within twice the capacity (3 ≤ 4). -/
theorem rate_limit_rolling_window_twice_bound_witness :
    ((0:ℚ) ≤ 2 ∧ admissible 2 (2/60) [0, 0, 30] = true) ∧
    ((countWindow 0 [0, 0, 30] : ℕ) : ℚ) ≤ 2 * 2 :=
  ⟨⟨by norm_num, by norm_num [admissible, bucketRun, bucketStep]⟩,
   rate_limit_rolling_window_twice_bound 2 [0, 0, 30] 0 (by norm_num)
     (by norm_num [admissible, bucketRun, bucketStep])⟩

end CodeReview
